import Mathlib

/-!
Verification development for the clipy download engine
(`src-tauri/src/services/{queue,ytdlp,process_registry}.rs` and
`src-tauri/src/commands/download.rs`).

Strings are modelled as `List Char`; all the Rust string operations used by
the progress parser work on ASCII needles, for which byte indices and
character indices agree.  Rust `f64` values are modelled as exact rationals
(the normalized-fraction type `Frac` below): every decimal literal
appearing in the claims is exactly representable in `f64` and all the
arithmetic performed on them (multiplication by powers of two, division by
100) is exact, so the rational model agrees with the IEEE semantics on the
inputs at issue.  Non-finite float literals (`inf`, `NaN`) are not
modelled.  Rust `u64` values are modelled as `Nat` with the saturating
conversion `Frac.toU64` mirroring Rust's `as u64` cast.
-/

namespace Clipy

/-! ### Exact rationals standing in for `f64` -/

/-- An exact rational; every value built by the operations below is kept in
lowest terms with a positive denominator, so structural equality is value
equality. -/
structure Frac where
  num : Int
  den : Nat
deriving DecidableEq, Repr

/-- Normalize a numerator/denominator pair (denominator 0 never arises in
the model; it is mapped to 0 for totality). -/
def Frac.norm (n : Int) (d : Nat) : Frac :=
  if d = 0 then ⟨0, 1⟩
  else
    let g := Nat.gcd n.natAbs d
    ⟨n / (g : Int), d / g⟩

def Frac.ofNat (n : Nat) : Frac := ⟨(n : Int), 1⟩

def Frac.ofInt (n : Int) : Frac := ⟨n, 1⟩

def Frac.add (a b : Frac) : Frac :=
  Frac.norm (a.num * (b.den : Int) + b.num * (a.den : Int)) (a.den * b.den)

def Frac.mul (a b : Frac) : Frac :=
  Frac.norm (a.num * b.num) (a.den * b.den)

/-- Multiplicative inverse; the model never inverts zero (mapped to 0). -/
def Frac.inv (a : Frac) : Frac :=
  if a.num > 0 then ⟨(a.den : Int), a.num.natAbs⟩
  else if a.num < 0 then ⟨-(a.den : Int), a.num.natAbs⟩
  else ⟨0, 1⟩

def Frac.div (a b : Frac) : Frac := a.mul b.inv

def Frac.pow (b : Frac) : Nat → Frac
  | 0 => ⟨1, 1⟩
  | Nat.succ n => (Frac.pow b n).mul b

/-- Is the value strictly positive? (`> 0.0` in Rust). -/
def Frac.isPos (a : Frac) : Bool := 0 < a.num

/-- Rust `as u64` applied to the value: negative values clamp to 0, values
at or above `2^64` clamp to `u64::MAX`, otherwise truncation toward zero. -/
def Frac.toU64 (a : Frac) : Nat :=
  if a.num ≤ 0 then 0 else min (2 ^ 64 - 1) (a.num.toNat / a.den)

/-! ### Character-list helpers mirroring the Rust `str` operations -/

/-- Does the first list start the second? Mirrors Rust matching a pattern at one position. -/
def startsWithChars : List Char → List Char → Bool
  | [], _ => true
  | _ :: _, [] => false
  | a :: as, b :: bs => a = b && startsWithChars as bs

/-- Mirrors Rust `str::contains(substring)`. -/
def containsSub (needle : List Char) : List Char → Bool
  | [] => startsWithChars needle []
  | c :: t => startsWithChars needle (c :: t) || containsSub needle t

/-- Mirrors Rust `str::find(substring)` (index of first occurrence). -/
def findSubIdx (needle : List Char) : List Char → Option Nat
  | [] => if startsWithChars needle [] then some 0 else none
  | c :: t =>
    if startsWithChars needle (c :: t) then some 0
    else (findSubIdx needle t).map (· + 1)

/-- Mirrors Rust `str::find(char)`. -/
def findCharIdx (c : Char) : List Char → Option Nat
  | [] => none
  | a :: t => if a = c then some 0 else (findCharIdx c t).map (· + 1)

/-- Mirrors Rust `str::rfind(pred)` (index of last character satisfying `p`). -/
def rfindPred (p : Char → Bool) : List Char → Option Nat
  | [] => none
  | c :: t =>
    match rfindPred p t with
    | some i => some (i + 1)
    | none => if p c then some 0 else none

/-- Mirrors Rust `str::trim`. -/
def trimChars (s : List Char) : List Char :=
  ((s.dropWhile Char.isWhitespace).reverse.dropWhile Char.isWhitespace).reverse

/-- Mirrors Rust `str::ends_with`. -/
def endsWithChars (suffix s : List Char) : Bool :=
  startsWithChars suffix.reverse s.reverse

/-- Fuel-indexed body of `trimEndMatches`; each strip removes at least one
character, so fuel `s.length` always suffices. -/
def trimEndMatchesGo : Nat → List Char → List Char → List Char
  | 0, _, s => s
  | Nat.succ fuel, suffix, s =>
    if suffix ≠ [] ∧ endsWithChars suffix s then
      trimEndMatchesGo fuel suffix (s.take (s.length - suffix.length))
    else s

/-- Mirrors Rust `str::trim_end_matches` (removes every trailing occurrence). -/
def trimEndMatches (suffix s : List Char) : List Char :=
  trimEndMatchesGo s.length suffix s

/-- Numeric value of a digit string (used only on all-digit lists). -/
def digitsToNat (ds : List Char) : Nat :=
  ds.foldl (fun a c => a * 10 + (c.toNat - 48)) 0

/-- Mirrors Rust `str::parse::<u64>().unwrap_or(0)`: optional `+` sign, then
digits; any failure (empty, non-digit, overflow) yields 0. -/
def parseU64 (s : List Char) : Nat :=
  let t := match s with
    | '+' :: rest => rest
    | _ => s
  if t ≠ [] ∧ t.all Char.isDigit then
    let v := digitsToNat t
    if v < 2 ^ 64 then v else 0
  else 0

/-- Exponent part of a decimal float literal. -/
def parseExpPart (sgn mant : Frac) (s : List Char) : Option Frac :=
  let (eneg, s1) : Bool × List Char :=
    match s with
    | '-' :: rest => (true, rest)
    | '+' :: rest => (false, rest)
    | _ => (false, s)
  if s1 ≠ [] ∧ s1.all Char.isDigit then
    let e := digitsToNat s1
    let tenPow := Frac.pow (Frac.ofNat 10) e
    some ((sgn.mul mant).mul (if eneg then tenPow.inv else tenPow))
  else none

/-- Mirrors Rust `str::parse::<f64>()` on finite decimal literals, with the
value taken exactly as a rational: optional sign, digits with an optional
fraction part (at least one digit overall), optional `e`/`E` exponent.
`inf`/`NaN` literals are not modelled. -/
def parseF64? (s : List Char) : Option Frac :=
  let (sgn, s1) : Frac × List Char :=
    match s with
    | '-' :: rest => (Frac.ofInt (-1), rest)
    | '+' :: rest => (Frac.ofNat 1, rest)
    | _ => (Frac.ofNat 1, s)
  let intPart := s1.takeWhile Char.isDigit
  let s2 := s1.dropWhile Char.isDigit
  let (fracPart, s3) : List Char × List Char :=
    match s2 with
    | '.' :: rest => (rest.takeWhile Char.isDigit, rest.dropWhile Char.isDigit)
    | _ => ([], s2)
  if intPart = [] ∧ fracPart = [] then none
  else
    let mantissa : Frac :=
      (Frac.ofNat (digitsToNat intPart)).add
        ((Frac.ofNat (digitsToNat fracPart)).div (Frac.pow (Frac.ofNat 10) fracPart.length))
    match s3 with
    | [] => some (sgn.mul mantissa)
    | 'e' :: rest => parseExpPart sgn mantissa rest
    | 'E' :: rest => parseExpPart sgn mantissa rest
    | _ => none

/-! ### Progress parser (`services/ytdlp.rs`) -/

/-- Model of `parse_eta` from `services/ytdlp.rs`: `"mm:ss"` or `"hh:mm:ss"`;
`"Unknown"` or an empty string yields 0. -/
def parse_eta (s : List Char) : Nat :=
  let s := trimChars s
  if s = "Unknown".data ∨ s = [] then 0
  else
    let parts := s.splitOn ':'
    match parts with
    | [m, sec] => parseU64 m * 60 + parseU64 sec
    | [h, m, sec] => parseU64 h * 3600 + parseU64 m * 60 + parseU64 sec
    | _ => 0

/-- The unit multiplier used by `parse_size`: the unit string is uppercased
and matched against the recognized unit names; anything else gets 1. -/
def sizeMultiplier (unit : List Char) : Nat :=
  let u := unit.map Char.toUpper
  if u = "KIB".data ∨ u = "KB".data then 1024
  else if u = "MIB".data ∨ u = "MB".data then 1024 * 1024
  else if u = "GIB".data ∨ u = "GB".data then 1024 * 1024 * 1024
  else 1

/-- Model of `parse_size` from `services/ytdlp.rs`: split at the first alphabetic
character into `<float><unit>`, multiply, cast `as u64`. -/
def parse_size (s : List Char) : Nat :=
  let s := trimChars s
  let i := match s.findIdx? Char.isAlpha with
    | some i => i
    | none => s.length
  let numStr := s.take i
  let unit := s.drop i
  let num : Frac := (parseF64? numStr).getD (Frac.ofNat 0)
  (num.mul (Frac.ofNat (sizeMultiplier unit))).toU64

/-- Model of `parse_speed` from `services/ytdlp.rs`: strip trailing `/s`, then parse
as a size. -/
def parse_speed (s : List Char) : Nat :=
  parse_size (trimEndMatches "/s".data (trimChars s))

/-- The percentage extraction step of `parse_progress_line`: the number
immediately preceding the first `%` (starting after the last whitespace
before it); a parse failure leaves 0. -/
def extract_percentage (line : List Char) : Frac :=
  match findCharIdx '%' line with
  | some pctIdx =>
    let pre := line.take pctIdx
    let start := match rfindPred Char.isWhitespace pre with
      | some i => i + 1
      | none => 0
    match parseF64? (trimChars (pre.drop start)) with
    | some v => v
    | none => Frac.ofNat 0
  | none => Frac.ofNat 0

/-- The tuple `(progress, downloaded, total, speed, eta)` returned by
`parse_progress_line`. -/
structure ProgressTuple where
  progress : Frac
  downloaded : Nat
  total : Nat
  speed : Nat
  eta : Nat
deriving DecidableEq, Repr

/-- Model of `parse_progress_line` from `services/ytdlp.rs` over character lists. -/
def parseProgressChars (line : List Char) : Option ProgressTuple :=
  if containsSub "[download]".data line = false then none
  else if containsSub "%".data line = false then none
  else
    let progress := extract_percentage line
    let td : Nat × Nat :=
      match findSubIdx " of ".data line with
      | some ofIdx =>
        let afterOf := line.drop (ofIdx + 4)
        match findCharIdx ' ' afterOf with
        | some spaceIdx =>
          let t := parse_size (afterOf.take spaceIdx)
          (t, ((progress.div (Frac.ofNat 100)).mul (Frac.ofNat t)).toU64)
        | none => (0, 0)
      | none => (0, 0)
    let speed : Nat :=
      match findSubIdx " at ".data line with
      | some atIdx =>
        let afterAt := line.drop (atIdx + 4)
        match findCharIdx ' ' afterAt with
        | some spaceIdx => parse_speed (afterAt.take spaceIdx)
        | none => 0
      | none => 0
    let eta : Nat :=
      match findSubIdx "ETA ".data line with
      | some etaIdx => parse_eta (trimChars (line.drop (etaIdx + 4)))
      | none => 0
    if progress.isPos = true ∨ containsSub "100%".data line = true then
      some ⟨progress, td.2, td.1, speed, eta⟩
    else none

/-- Model of `parse_progress_line` on Lean strings. -/
def parse_progress_line (line : String) : Option ProgressTuple :=
  parseProgressChars line.data

/-! ### Data model (`models/download.rs`) -/

/-- Model of `DownloadStatus` from `models/download.rs`. -/
inductive DownloadStatus where
  | Pending
  | Fetching
  | Downloading
  | Processing
  | Completed
  | Failed
  | Cancelled
  | Paused
deriving DecidableEq, Repr

/-- Model of `DownloadOptions` from `models/download.rs`. -/
structure DownloadOptions where
  quality : String
  format : String
  audio_only : Bool
  output_path : String
  filename : String
  embed_thumbnail : Bool
  embed_metadata : Bool
  audio_format : String
  audio_bitrate : String
  video_codec : String
  audio_codec : String
  download_subtitles : Bool
  subtitle_languages : List String
  subtitle_format : String
  embed_subtitles : Bool
  auto_subtitles : Bool
  sponsor_block : Bool
  sponsor_block_categories : List String
  download_chapters : Bool
  split_by_chapters : Bool
  write_description : Bool
  write_comments : Bool
  write_thumbnail : Bool
  keep_original : Bool
  max_filesize : String
  rate_limit : String
  playlist_items : String
  no_playlist : Bool
  extract_audio : Bool
  remux_video : String
  convert_thumbnails : String
  cookies_from_browser : String
  concurrent_fragments : Nat
  proxy_url : String
  restrict_filenames : Bool
  use_download_archive : Bool
  geo_bypass : Bool
deriving DecidableEq, Repr

/-- The `Default` implementation for `DownloadOptions`. -/
def DownloadOptions.defaults : DownloadOptions where
  quality := "1080"
  format := "mp4"
  audio_only := false
  output_path := ""
  filename := ""
  embed_thumbnail := true
  embed_metadata := true
  audio_format := "m4a"
  audio_bitrate := "192"
  video_codec := "auto"
  audio_codec := "auto"
  download_subtitles := false
  subtitle_languages := ["en"]
  subtitle_format := "srt"
  embed_subtitles := false
  auto_subtitles := false
  sponsor_block := false
  sponsor_block_categories := ["sponsor"]
  download_chapters := false
  split_by_chapters := false
  write_description := false
  write_comments := false
  write_thumbnail := false
  keep_original := false
  max_filesize := ""
  rate_limit := ""
  playlist_items := ""
  no_playlist := true
  extract_audio := false
  remux_video := ""
  convert_thumbnails := ""
  cookies_from_browser := ""
  concurrent_fragments := 1
  proxy_url := ""
  restrict_filenames := false
  use_download_archive := false
  geo_bypass := false

/-- Model of `DownloadTask` from `models/download.rs`. -/
structure DownloadTask where
  id : String
  video_id : String
  title : String
  thumbnail : String
  url : String
  status : DownloadStatus
  progress : Frac
  downloaded_bytes : Nat
  total_bytes : Nat
  speed : Nat
  eta : Nat
  quality : String
  format : String
  output_path : String
  error : Option String
  created_at : String
  completed_at : Option String
  duration : Nat
  channel : String
  options : DownloadOptions
deriving DecidableEq, Repr

/-- Model of `DownloadProgress` from `models/download.rs` (one published sample). -/
structure DownloadProgress where
  download_id : String
  status : DownloadStatus
  progress : Frac
  downloaded_bytes : Nat
  total_bytes : Nat
  speed : Nat
  eta : Nat
  file_path : Option String
deriving DecidableEq, Repr

/-! ### Queue / scheduler (`services/queue.rs`)

The queue operations are modelled as sequential state transformers.  The
`active` `HashMap<String, DownloadTask>` is an association list whose key
order is never observed; `pending` is the `Vec<DownloadTask>`.  Each
operation returns its `Result`, the successor state and the list of
progress samples it emits.  The bodies spawned by `tokio::spawn` inside
`start_download` (per-job progress forwarding and the completion handler)
run outside the lock and are not part of these synchronous transitions. -/

/-- Queue state: `active`, `pending` and `max_concurrent`. -/
structure QueueState where
  active : List (String × DownloadTask)
  pending : List DownloadTask
  max_concurrent : Nat
deriving DecidableEq, Repr

/-- Model of `HashMap::get` on the active set. -/
def activeGet (a : List (String × DownloadTask)) (id : String) : Option DownloadTask :=
  (a.find? (fun p => p.1 = id)).map (fun p => p.2)

/-- Model of `HashMap::insert` on the active set (replaces any entry with the key). -/
def activeInsert (a : List (String × DownloadTask)) (id : String) (t : DownloadTask) :
    List (String × DownloadTask) :=
  (a.filter (fun p => p.1 ≠ id)) ++ [(id, t)]

/-- Model of `HashMap::remove` on the active set. -/
def activeRemove (a : List (String × DownloadTask)) (id : String) :
    List (String × DownloadTask) :=
  a.filter (fun p => p.1 ≠ id)

/-- The zero-figure sample emitted when a job is (re)started or cancelled. -/
def zeroSample (id : String) (st : DownloadStatus) : DownloadProgress :=
  ⟨id, st, Frac.ofNat 0, 0, 0, 0, 0, none⟩

/-- Synchronous part of `DownloadQueue::start_download`: set the status to
`Downloading`, insert into `active`, emit one `Downloading` sample with
zero figures. -/
def start_download (s : QueueState) (task : DownloadTask) :
    QueueState × List DownloadProgress :=
  let task := { task with status := DownloadStatus.Downloading }
  ({ s with active := activeInsert s.active task.id task },
   [zeroSample task.id DownloadStatus.Downloading])

/-- Body of the `DownloadQueue::process_queue` loop, fuel-indexed; the loop
pops one pending task per iteration, so fuel `s.pending.length` always
suffices. -/
def processQueueGo : Nat → QueueState → List DownloadProgress →
    QueueState × List DownloadProgress
  | 0, s, acc => (s, acc)
  | Nat.succ fuel, s, acc =>
    if s.active.length ≥ s.max_concurrent then (s, acc)
    else
      match s.pending with
      | [] => (s, acc)
      | t :: rest =>
        let r := start_download { s with pending := rest } t
        processQueueGo fuel r.1 (acc ++ r.2)

/-- Model of `DownloadQueue::process_queue`: admit pending jobs while the active
count is below the bound. -/
def process_queue (s : QueueState) : QueueState × List DownloadProgress :=
  processQueueGo s.pending.length s []

/-- Model of `DownloadQueue::add_download`: duplicate-id checks, then push to the
pending tail and run an admission pass. -/
def add_download (s : QueueState) (task : DownloadTask) :
    Except String Unit × QueueState × List DownloadProgress :=
  if (activeGet s.active task.id).isSome then
    (Except.error "Download already in progress", s, [])
  else if s.pending.any (fun t => t.id = task.id) then
    (Except.error "Download already in queue", s, [])
  else
    let s := { s with pending := s.pending ++ [task] }
    let (s, ev) := process_queue s
    (Except.ok (), s, ev)

/-- Model of `DownloadQueue::pause_download`: best-effort process kill (registry not
part of the queue state), then mark the active entry `Paused` and emit one
`Paused` sample carrying the task's current figures with zero speed/eta.
Fails when the id has no active entry. -/
def pause_download (s : QueueState) (id : String) :
    Except String Unit × QueueState × List DownloadProgress :=
  match activeGet s.active id with
  | some task =>
    let task' := { task with status := DownloadStatus.Paused }
    (Except.ok (),
     { s with active := activeInsert s.active id task' },
     [⟨id, DownloadStatus.Paused, task.progress, task.downloaded_bytes,
       task.total_bytes, 0, 0, none⟩])
  | none => (Except.error "Download not found", s, [])

/-- Model of `DownloadQueue::resume_download`: remove the entry if it is active and
`Paused` and re-dispatch it through `start_download`; otherwise fail. -/
def resume_download (s : QueueState) (id : String) :
    Except String Unit × QueueState × List DownloadProgress :=
  let taskOpt :=
    match activeGet s.active id with
    | some task => if task.status = DownloadStatus.Paused then some task else none
    | none => none
  match taskOpt with
  | some task =>
    let s := { s with active := activeRemove s.active id }
    let (s', ev) := start_download s task
    (Except.ok (), s', ev)
  | none => (Except.error "Download not found or not paused", s, [])

/-- Model of `DownloadQueue::cancel_download`: remove from active (emitting one
zero-figure `Cancelled` sample), else remove from pending (same sample),
else fail. -/
def cancel_download (s : QueueState) (id : String) :
    Except String Unit × QueueState × List DownloadProgress :=
  if (activeGet s.active id).isSome then
    (Except.ok (),
     { s with active := activeRemove s.active id },
     [zeroSample id DownloadStatus.Cancelled])
  else
    match s.pending.findIdx? (fun t => t.id = id) with
    | some idx =>
      (Except.ok (),
       { s with pending := s.pending.eraseIdx idx },
       [zeroSample id DownloadStatus.Cancelled])
    | none => (Except.error "Download not found", s, [])

/-- Model of `DownloadQueue::get_all_downloads`: active values then pending. -/
def get_all_downloads (s : QueueState) : List DownloadTask :=
  s.active.map (fun p => p.2) ++ s.pending

/-- Model of `DownloadQueue::clear_completed`: retain the active entries whose
status is not `Completed`, `Failed` or `Cancelled`. -/
def clear_completed (s : QueueState) : QueueState :=
  { s with active := s.active.filter (fun p =>
      decide (p.2.status ≠ DownloadStatus.Completed ∧
              p.2.status ≠ DownloadStatus.Failed ∧
              p.2.status ≠ DownloadStatus.Cancelled)) }

/-- Model of `DownloadQueue::set_max_concurrent`: update the bound and run an
admission pass. -/
def set_max_concurrent (s : QueueState) (mx : Nat) :
    QueueState × List DownloadProgress :=
  process_queue { s with max_concurrent := mx }

/-- The brand-new task built by `retry_download`: fresh id, `Pending`
status, zeroed progress figures, a fresh creation timestamp, and every
descriptive field and the options copied from the failed task. -/
def retryNewTask (task : DownloadTask) (freshId now : String) : DownloadTask :=
  { id := freshId
    video_id := task.video_id
    title := task.title
    thumbnail := task.thumbnail
    url := task.url
    status := DownloadStatus.Pending
    progress := Frac.ofNat 0
    downloaded_bytes := 0
    total_bytes := 0
    speed := 0
    eta := 0
    quality := task.quality
    format := task.format
    output_path := task.output_path
    error := none
    created_at := now
    completed_at := none
    duration := task.duration
    channel := task.channel
    options := task.options }

/-- Model of `retry_download` from `commands/download.rs`: look the id up in all
downloads, require status `Failed`, build a brand-new task (the fresh uuid
and the clock are passed in as `freshId`/`now`), then cancel the old id and
submit the new task. -/
def retry_download (s : QueueState) (id freshId now : String) :
    Except String Unit × QueueState × List DownloadProgress :=
  match (get_all_downloads s).find? (fun t => t.id = id) with
  | none => (Except.error "Download not found", s, [])
  | some task =>
    if task.status ≠ DownloadStatus.Failed then
      (Except.error "Download is not in failed state", s, [])
    else
      let new_task : DownloadTask := retryNewTask task freshId now
      match cancel_download s id with
      | (Except.error e, s', ev) => (Except.error e, s', ev)
      | (Except.ok _, s', ev1) =>
        match add_download s' new_task with
        | (Except.error e, s'', ev2) => (Except.error e, s'', ev1 ++ ev2)
        | (Except.ok _, s'', ev2) => (Except.ok (), s'', ev1 ++ ev2)

/-! ### Operation sequences over the queue (for the concurrency-bound claim) -/

/-- One externally issued queue command. -/
inductive QOp where
  | submit (t : DownloadTask)
  | pause (id : String)
  | resume (id : String)
  | cancel (id : String)
  | setLimit (n : Nat)
deriving DecidableEq, Repr

/-- Is the operation a `set_concurrency_limit`? -/
def QOp.isSetLimit : QOp → Bool
  | QOp.setLimit _ => true
  | _ => false

/-- State reached after one command (results and samples discarded). -/
def applyOp (s : QueueState) (op : QOp) : QueueState :=
  match op with
  | QOp.submit t => (add_download s t).2.1
  | QOp.pause id => (pause_download s id).2.1
  | QOp.resume id => (resume_download s id).2.1
  | QOp.cancel id => (cancel_download s id).2.1
  | QOp.setLimit n => (set_max_concurrent s n).1

/-- State reached after a sequence of commands. -/
def runOps (s : QueueState) (ops : List QOp) : QueueState :=
  ops.foldl applyOp s

/-! ### Executor registry lifecycle (`services/ytdlp.rs::download_video`)

`download_video` performs I/O; the model below keeps its control-flow
skeleton and both of its process-registry mutations in source order, with
the outcome of every external step supplied by an `ExecEnv`.  The process
registry (`services/process_registry.rs`) is the list of registered job
ids.  Stream draining and progress publication touch neither the registry
nor the return path taken and are elided. -/

/-- Outcomes of the external steps of one `download_video` run. -/
structure ExecEnv where
  spawn_ok : Bool
  pid : Option Nat
  registry_available : Bool
  stdout_ok : Bool
  stderr_ok : Bool
  wait_ok : Bool
  exit_success : Bool
  find_result : Option String
deriving DecidableEq, Repr

/-- Model of `ProcessRegistry::register`. -/
def regRegister (reg : List String) (id : String) : List String :=
  if id ∈ reg then reg else id :: reg

/-- Model of `ProcessRegistry::unregister`. -/
def regUnregister (reg : List String) (id : String) : List String :=
  reg.filter (fun x => x ≠ id)

/-- Model of `download_video` from `services/ytdlp.rs`, reduced to its return paths
and registry effects: spawn, register (when a pid exists and the registry
is initialized), capture stdout, capture stderr, drain streams (elided),
wait, unregister, exit-status check, output resolution. -/
def download_video (env : ExecEnv) (download_id : String) (reg : List String) :
    Except String String × List String :=
  if env.spawn_ok = false then (Except.error "Failed to spawn yt-dlp", reg)
  else
    let reg1 := if env.pid.isSome ∧ env.registry_available then
        regRegister reg download_id
      else reg
    if env.stdout_ok = false then (Except.error "Failed to capture stdout", reg1)
    else if env.stderr_ok = false then (Except.error "Failed to capture stderr", reg1)
    else if env.wait_ok = false then (Except.error "Failed to wait for yt-dlp", reg1)
    else
      let reg2 := if env.registry_available then regUnregister reg1 download_id else reg1
      if env.exit_success = false then (Except.error "Download failed", reg2)
      else
        match env.find_result with
        | some p => (Except.ok p, reg2)
        | none => (Except.error "Could not find downloaded file", reg2)

instance {α β : Type} [DecidableEq α] [DecidableEq β] : DecidableEq (Except α β) :=
  fun a b =>
    match a, b with
    | Except.error x, Except.error y =>
      if h : x = y then Decidable.isTrue (by rw [h])
      else Decidable.isFalse (by intro hc; cases hc; exact h rfl)
    | Except.ok x, Except.ok y =>
      if h : x = y then Decidable.isTrue (by rw [h])
      else Decidable.isFalse (by intro hc; cases hc; exact h rfl)
    | Except.error _, Except.ok _ => Decidable.isFalse (by intro hc; cases hc)
    | Except.ok _, Except.error _ => Decidable.isFalse (by intro hc; cases hc)

/-- All tasks known to the queue: active values then pending. -/
def allTasks (s : QueueState) : List DownloadTask :=
  s.active.map (fun p => p.2) ++ s.pending

/-- The ids of all tasks known to the queue. -/
def allIds (s : QueueState) : List String :=
  (allTasks s).map (fun t => t.id)

/-- The fields the retried job must carry: fresh id, copied options, url
and title, no error, and a status of `Pending` (still queued) or
`Downloading` (already admitted). -/
def newTaskSpec (i : String) (o : DownloadOptions) (u ti : String) (t : DownloadTask) : Prop :=
  t.id = i ∧ t.options = o ∧ t.url = u ∧ t.title = ti ∧ t.error = none ∧
    (t.status = DownloadStatus.Pending ∨ t.status = DownloadStatus.Downloading)

/-- Invariant tracking the retried job through admission passes. -/
def trackInv (i : String) (o : DownloadOptions) (u ti : String) (s : QueueState) : Prop :=
  (∃ t ∈ allTasks s, t.id = i)
  ∧ (∀ t ∈ allTasks s, t.id = i → newTaskSpec i o u ti t)
  ∧ (∀ p ∈ s.active, p.2.id = i → p.1 = i)

/-- The state reached inside `retry_download` after its cancel of the old
id and the submit of the new task, before the admission pass. -/
def retryMidState (s : QueueState) (id : String) (task : DownloadTask)
    (freshId now : String) : QueueState where
  active := activeRemove s.active id
  pending := s.pending ++ [retryNewTask task freshId now]
  max_concurrent := s.max_concurrent

/-! ### Concrete fixtures -/

/-- A concrete task used in concrete states. -/
def mkTask (id : String) (st : DownloadStatus) : DownloadTask where
  id := id
  video_id := "v"
  title := "t"
  thumbnail := "th"
  url := "u"
  status := st
  progress := Frac.ofNat 0
  downloaded_bytes := 0
  total_bytes := 0
  speed := 0
  eta := 0
  quality := "1080"
  format := "mp4"
  output_path := "/d"
  error := none
  created_at := "c"
  completed_at := none
  duration := 0
  channel := "ch"
  options := DownloadOptions.defaults

/-! ### Helper lemmas -/

theorem Frac.toU64_mul_zero (a : Frac) : (a.mul (Frac.ofNat 0)).toU64 = 0 := by
  unfold Frac.mul Frac.ofNat Frac.norm Frac.toU64
  by_cases h : a.den = 0 <;> simp [h, Int.zero_tdiv]

/-- In every sample, the downloaded-bytes figure is derived as
`(percentage / 100) * total` cast `as u64`, never read from the line. -/
theorem downloaded_is_derived (line : List Char) (t : ProgressTuple)
    (h : parseProgressChars line = some t) :
    t.downloaded = ((t.progress.div (Frac.ofNat 100)).mul (Frac.ofNat t.total)).toU64 := by
  unfold parseProgressChars at h
  cases h1 : containsSub "[download]".data line with
  | false => simp [h1] at h
  | true =>
  cases h2 : containsSub "%".data line with
  | false => simp [h2] at h
  | true =>
  simp only [h1, h2] at h
  by_cases h3 : (extract_percentage line).isPos = true ∨ containsSub "100%".data line = true
  · simp only [h3, if_true, if_pos] at h
    rcases hof : findSubIdx " of ".data line with _ | ofIdx
    · simp only [hof] at h
      rw [← Option.some.injEq] at h
      cases h
      simp [Frac.toU64_mul_zero]
    · rcases hsp : findCharIdx ' ' (line.drop (ofIdx + 4)) with _ | spaceIdx
      · simp only [hof, hsp] at h
        cases h
        simp [Frac.toU64_mul_zero]
      · simp only [hof, hsp] at h
        cases h
        rfl
  · simp [h3] at h

/-! ### Claims about the progress parser -/

/-- C10: a line that does not contain the literal substring `"[download]"`
is never recognized as a progress line, whatever else it carries. -/
theorem C10_download_tag_required (line : String)
    (h : containsSub "[download]".data line.data = false) :
    parse_progress_line line = none := by
  unfold parse_progress_line parseProgressChars
  simp [h]

/-- Witness for C10 at a line that carries a percentage and the full
size/rate/eta vocabulary but no `"[download]"` tag. -/
theorem C10_download_tag_required_witness :
    containsSub "[download]".data "hello 50.0% of 1.00MiB at 1.00MiB/s ETA 00:01".data = false
    ∧ parse_progress_line "hello 50.0% of 1.00MiB at 1.00MiB/s ETA 00:01" = none :=
  ⟨by decide, C10_download_tag_required _ (by decide)⟩

/-- C3, counterexample: `"[download] 50.0%"` yields a sample although the
line carries none of the size/rate/eta vocabulary (` of `, ` at `, `ETA`),
so a percentage marker alone suffices, contrary to the claim. -/
theorem C3_counterexample :
    parse_progress_line "[download] 50.0%" = some ⟨⟨50, 1⟩, 0, 0, 0, 0⟩
    ∧ containsSub " of ".data "[download] 50.0%".data = false
    ∧ containsSub " at ".data "[download] 50.0%".data = false
    ∧ containsSub "ETA".data "[download] 50.0%".data = false := by decide

/-- C3 as amended: `parse_progress_line` yields a sample exactly for lines
containing `"[download]"` and `"%"` whose extracted percentage is positive
or which contain `"100%"` — no size/rate/eta vocabulary is required; and a
destination-announcement line still yields `none` (it has no `%`). -/
theorem C3_amended_sample_condition :
    (∀ line : String,
      (parse_progress_line line).isSome = true ↔
        (containsSub "[download]".data line.data = true ∧
         containsSub "%".data line.data = true ∧
         ((extract_percentage line.data).isPos = true ∨
          containsSub "100%".data line.data = true)))
    ∧ parse_progress_line "[download] Destination: /x/y.mp4" = none := by
  refine ⟨fun line => ?_, by decide⟩
  unfold parse_progress_line parseProgressChars
  cases h1 : containsSub "[download]".data line.data with
  | false => simp [h1]
  | true =>
    cases h2 : containsSub "%".data line.data with
    | false => simp [h2]
    | true =>
      by_cases h3 : (extract_percentage line.data).isPos = true ∨
          containsSub "100%".data line.data = true
      · simp [h1, h2, h3]
      · simp [h1, h2, h3]

/-- C4: the canonical example line parses to percentage 50, total
`100 * 1024 * 1024` bytes, downloaded half of the total, rate
`5 * 1024 * 1024` bytes/s and eta 10 s; downloaded is always derived as
`(percentage / 100) * total`; the size units are matched case-insensitively
(via uppercasing) with the binary-power multipliers and any other unit gets
multiplier 1. -/
theorem C4_example_line_and_units :
    (parse_progress_line "[download]  50.0% of 100.00MiB at 5.00MiB/s ETA 00:10"
      = some ⟨⟨50, 1⟩, 52428800, 104857600, 5242880, 10⟩)
    ∧ (104857600 : Nat) = 100 * (1024 * 1024)
    ∧ (52428800 : Nat) * 2 = 104857600
    ∧ (5242880 : Nat) = 5 * (1024 * 1024)
    ∧ (∀ line : String, ∀ t : ProgressTuple, parse_progress_line line = some t →
        t.downloaded = ((t.progress.div (Frac.ofNat 100)).mul (Frac.ofNat t.total)).toU64)
    ∧ (∀ u : List Char,
        u.map Char.toUpper = "KIB".data ∨ u.map Char.toUpper = "KB".data →
        sizeMultiplier u = 1024)
    ∧ (∀ u : List Char,
        u.map Char.toUpper = "MIB".data ∨ u.map Char.toUpper = "MB".data →
        sizeMultiplier u = 1024 * 1024)
    ∧ (∀ u : List Char,
        u.map Char.toUpper = "GIB".data ∨ u.map Char.toUpper = "GB".data →
        sizeMultiplier u = 1024 * 1024 * 1024)
    ∧ (∀ u : List Char,
        u.map Char.toUpper ∉
          ["KIB".data, "KB".data, "MIB".data, "MB".data, "GIB".data, "GB".data] →
        sizeMultiplier u = 1) := by
  refine ⟨by decide, by decide, by decide, by decide,
    fun line t h => downloaded_is_derived line.data t h, ?_, ?_, ?_, ?_⟩
  · intro u h
    unfold sizeMultiplier
    rcases h with h | h <;> rw [h] <;> decide
  · intro u h
    unfold sizeMultiplier
    rcases h with h | h <;> rw [h] <;> decide
  · intro u h
    unfold sizeMultiplier
    rcases h with h | h <;> rw [h] <;> decide
  · intro u h
    simp only [List.mem_cons, List.mem_singleton, not_or] at h
    obtain ⟨h1, h2, h3, h4, h5, h6⟩ := h
    simp [sizeMultiplier, h1, h2, h3, h4, h5, h6]

/-- Witness for C4: instances of the universally quantified conjuncts at
concrete inputs. -/
theorem C4_example_line_and_units_witness :
    ((⟨⟨50, 1⟩, 52428800, 104857600, 5242880, 10⟩ : ProgressTuple).downloaded
      = (((⟨⟨50, 1⟩, 52428800, 104857600, 5242880, 10⟩ : ProgressTuple).progress.div
          (Frac.ofNat 100)).mul
          (Frac.ofNat (⟨⟨50, 1⟩, 52428800, 104857600, 5242880, 10⟩ : ProgressTuple).total)).toU64)
    ∧ sizeMultiplier "kib".data = 1024
    ∧ sizeMultiplier "Mb".data = 1024 * 1024
    ∧ sizeMultiplier "giB".data = 1024 * 1024 * 1024
    ∧ sizeMultiplier "B".data = 1 :=
  ⟨C4_example_line_and_units.2.2.2.2.1
      "[download]  50.0% of 100.00MiB at 5.00MiB/s ETA 00:10" _ (by decide),
   C4_example_line_and_units.2.2.2.2.2.1 "kib".data (Or.inl (by decide)),
   C4_example_line_and_units.2.2.2.2.2.2.1 "Mb".data (Or.inr (by decide)),
   C4_example_line_and_units.2.2.2.2.2.2.2.1 "giB".data (Or.inl (by decide)),
   C4_example_line_and_units.2.2.2.2.2.2.2.2 "B".data (by decide)⟩

/-! ### Queue lemmas -/

theorem length_filter_lt_of_mem {α : Type} (p : α → Bool) (l : List α) (x : α)
    (hx : x ∈ l) (hpx : p x = false) : (l.filter p).length < l.length := by
  induction l with
  | nil => cases hx
  | cons y ys ih =>
    rcases List.mem_cons.mp hx with rfl | hmem
    · have hle := List.length_filter_le p ys
      simp [List.filter_cons, hpx]
      omega
    · have hle := ih hmem
      cases hp : p y
      · simp [List.filter_cons, hp]
        omega
      · simp [List.filter_cons, hp]
        omega

theorem activeInsert_length_le (a : List (String × DownloadTask)) (id : String)
    (t : DownloadTask) : (activeInsert a id t).length ≤ a.length + 1 := by
  unfold activeInsert
  have := List.length_filter_le (fun p => decide (p.1 ≠ id)) a
  simp only [List.length_append, List.length_cons, List.length_nil]
  omega

theorem activeGet_isSome_mem (a : List (String × DownloadTask)) (id : String)
    (h : (activeGet a id).isSome = true) :
    ∃ p ∈ a, p.1 = id := by
  unfold activeGet at h
  rcases hf : a.find? (fun p => p.1 = id) with _ | p0
  · rw [hf] at h; simp at h
  · refine ⟨p0, List.mem_of_find?_eq_some hf, ?_⟩
    have := List.find?_some hf
    simpa using this

theorem activeRemove_length_lt (a : List (String × DownloadTask)) (id : String)
    (h : (activeGet a id).isSome = true) :
    (activeRemove a id).length < a.length := by
  obtain ⟨p0, hmem, hp0⟩ := activeGet_isSome_mem a id h
  exact length_filter_lt_of_mem _ a p0 hmem (by simp [hp0])

theorem processQueueGo_bound (fuel : Nat) :
    ∀ (s : QueueState) (acc : List DownloadProgress),
    s.active.length ≤ s.max_concurrent →
    (processQueueGo fuel s acc).1.active.length
      ≤ (processQueueGo fuel s acc).1.max_concurrent := by
  induction fuel with
  | zero => intro s acc h; simpa [processQueueGo] using h
  | succ n ih =>
    intro s acc h
    unfold processQueueGo
    by_cases hge : s.active.length ≥ s.max_concurrent
    · simp only [hge, if_true]; exact h
    · simp only [hge, if_false]
      rcases hp : s.pending with _ | ⟨t, rest⟩
      · exact h
      · apply ih
        unfold start_download
        simp only
        have h1 := activeInsert_length_le s.active t.id
          { t with status := DownloadStatus.Downloading }
        omega

theorem process_queue_bound (s : QueueState)
    (h : s.active.length ≤ s.max_concurrent) :
    (process_queue s).1.active.length ≤ (process_queue s).1.max_concurrent :=
  processQueueGo_bound _ s [] h

theorem add_download_bound (s : QueueState) (t : DownloadTask)
    (h : s.active.length ≤ s.max_concurrent) :
    (add_download s t).2.1.active.length ≤ (add_download s t).2.1.max_concurrent := by
  unfold add_download
  by_cases h1 : (activeGet s.active t.id).isSome = true
  · simp only [h1, if_true]; exact h
  · simp only [h1, if_false, Bool.not_eq_true] at *
    by_cases h2 : s.pending.any (fun u => decide (u.id = t.id)) = true
    · simp only [h2, if_true]; exact h
    · simp only [h2, if_false]
      exact process_queue_bound _ h

theorem pause_download_bound (s : QueueState) (id : String)
    (h : s.active.length ≤ s.max_concurrent) :
    (pause_download s id).2.1.active.length ≤ (pause_download s id).2.1.max_concurrent := by
  unfold pause_download
  rcases hg : activeGet s.active id with _ | task
  · exact h
  · simp only
    have hsome : (activeGet s.active id).isSome = true := by rw [hg]; rfl
    have h1 := activeRemove_length_lt s.active id hsome
    unfold activeRemove at h1
    unfold activeInsert
    simp only [List.length_append, List.length_cons, List.length_nil]
    omega

theorem resume_download_active_le (s : QueueState) (id : String) :
    (resume_download s id).2.1.active.length ≤ s.active.length := by
  unfold resume_download
  rcases hg : activeGet s.active id with _ | task
  · simp only; exact Nat.le_refl _
  · by_cases hp : task.status = DownloadStatus.Paused
    · simp only [hp, if_true]
      have hsome : (activeGet s.active id).isSome = true := by rw [hg]; rfl
      have h1 := activeRemove_length_lt s.active id hsome
      unfold start_download
      simp only
      have h2 := activeInsert_length_le (activeRemove s.active id) task.id
        { task with status := DownloadStatus.Downloading }
      omega
    · simp only [hp, if_false]
      exact Nat.le_refl _

theorem resume_download_bound (s : QueueState) (id : String)
    (h : s.active.length ≤ s.max_concurrent) :
    (resume_download s id).2.1.active.length ≤ (resume_download s id).2.1.max_concurrent := by
  have h1 := resume_download_active_le s id
  have h2 : (resume_download s id).2.1.max_concurrent = s.max_concurrent := by
    unfold resume_download
    rcases hg : activeGet s.active id with _ | task
    · rfl
    · by_cases hp : task.status = DownloadStatus.Paused
      · simp only [hp, if_true]; rfl
      · simp only [hp, if_false]
  omega

theorem cancel_download_bound (s : QueueState) (id : String)
    (h : s.active.length ≤ s.max_concurrent) :
    (cancel_download s id).2.1.active.length ≤ (cancel_download s id).2.1.max_concurrent := by
  unfold cancel_download
  by_cases h1 : (activeGet s.active id).isSome = true
  · simp only [h1, if_true]
    have hle := List.length_filter_le (fun p => decide (p.1 ≠ id)) s.active
    unfold activeRemove
    omega
  · simp only [h1]
    rcases hf : s.pending.findIdx? (fun t => decide (t.id = id)) with _ | idx
    · simp only [hf]
      simpa using h
    · simp only [hf]
      simpa using h

theorem applyOp_bound (s : QueueState) (op : QOp)
    (h : s.active.length ≤ s.max_concurrent) (hop : op.isSetLimit = false) :
    (applyOp s op).active.length ≤ (applyOp s op).max_concurrent := by
  cases op with
  | submit t => exact add_download_bound s t h
  | pause id => exact pause_download_bound s id h
  | resume id => exact resume_download_bound s id h
  | cancel id => exact cancel_download_bound s id h
  | setLimit n => cases hop

theorem runOps_bound (ops : List QOp) :
    ∀ s : QueueState, s.active.length ≤ s.max_concurrent →
    (∀ op ∈ ops, op.isSetLimit = false) →
    (runOps s ops).active.length ≤ (runOps s ops).max_concurrent := by
  induction ops with
  | nil => intro s h _; simpa [runOps] using h
  | cons op rest ih =>
    intro s h hops
    have h1 := applyOp_bound s op h (hops op (List.mem_cons_self op rest))
    have h2 : ∀ o ∈ rest, o.isSetLimit = false :=
      fun o ho => hops o (List.mem_cons_of_mem op ho)
    simpa [runOps] using ih (applyOp s op) h1 h2

/-! ### Claims about the queue -/

/-- C1, counterexample: with limit 2, two submissions admit two jobs; then
`set_concurrency_limit 1` lowers the bound without preempting, leaving two
simultaneously active jobs above the limit of 1.  The claimed invariant
fails once `set_concurrency_limit` may lower the bound. -/
theorem C1_counterexample :
    ((runOps ⟨[], [], 2⟩
        [QOp.submit (mkTask "a" DownloadStatus.Pending),
         QOp.submit (mkTask "b" DownloadStatus.Pending),
         QOp.setLimit 1]).active.length
      > (runOps ⟨[], [], 2⟩
          [QOp.submit (mkTask "a" DownloadStatus.Pending),
           QOp.submit (mkTask "b" DownloadStatus.Pending),
           QOp.setLimit 1]).max_concurrent) := by decide

/-- C1 as amended: from any state satisfying the bound, any sequence of
submit/pause/resume/cancel operations (no concurrency-limit change)
preserves `active count ≤ limit`; moreover a resume never increases the
number of active entries (the paused entry is removed before the job is
re-dispatched), so resume alone cannot push the count past the bound. -/
theorem C1_amended_bound :
    (∀ (s : QueueState) (ops : List QOp),
      s.active.length ≤ s.max_concurrent →
      (∀ op ∈ ops, op.isSetLimit = false) →
      (runOps s ops).active.length ≤ (runOps s ops).max_concurrent)
    ∧ (∀ (s : QueueState) (id : String),
      (resume_download s id).2.1.active.length ≤ s.active.length) :=
  ⟨fun s ops h hops => runOps_bound ops s h hops,
   fun s id => resume_download_active_le s id⟩

/-- Witness for C1 as amended, at limit 1 with two submissions, a pause and
a cancel. -/
theorem C1_amended_bound_witness :
    ((runOps ⟨[], [], 1⟩
        [QOp.submit (mkTask "a" DownloadStatus.Pending),
         QOp.submit (mkTask "b" DownloadStatus.Pending),
         QOp.pause "a", QOp.cancel "b"]).active.length
      ≤ (runOps ⟨[], [], 1⟩
          [QOp.submit (mkTask "a" DownloadStatus.Pending),
           QOp.submit (mkTask "b" DownloadStatus.Pending),
           QOp.pause "a", QOp.cancel "b"]).max_concurrent)
    ∧ (resume_download ⟨[], [], 1⟩ "x").2.1.active.length
        ≤ (⟨[], [], 1⟩ : QueueState).active.length :=
  ⟨C1_amended_bound.1 ⟨[], [], 1⟩ _ (by decide) (by decide),
   C1_amended_bound.2 ⟨[], [], 1⟩ "x"⟩

/-- C5, counterexample: pausing a job that sits in the pending sequence
(and not in the active set) fails with the not-found error, although the
claim says membership in pending should prevent that failure. -/
theorem C5_counterexample :
    ((pause_download ⟨[], [mkTask "p" DownloadStatus.Pending], 1⟩ "p").1
        = Except.error "Download not found")
    ∧ ((⟨[], [mkTask "p" DownloadStatus.Pending], 1⟩ : QueueState).pending.any
        (fun t => t.id = "p") = true) := by decide

/-- C5 as amended: `pause(id)` fails with `JobNotFound` if and only if the
id has no entry in the active set — membership in the pending sequence is
irrelevant to `pause`. -/
theorem C5_amended_not_found (s : QueueState) (id : String) :
    ((pause_download s id).1 = Except.error "Download not found")
      ↔ activeGet s.active id = none := by
  unfold pause_download
  rcases hg : activeGet s.active id with _ | task
  · simp
  · simp

/-- C6: submitting a task whose id is already in the active set or the
pending sequence fails with one of the two duplicate-job errors and leaves
the whole state unchanged, emitting no sample. -/
theorem C6_duplicate_submit_rejected (s : QueueState) (t : DownloadTask)
    (h : (activeGet s.active t.id).isSome = true
      ∨ s.pending.any (fun u => u.id = t.id) = true) :
    ((add_download s t).1 = Except.error "Download already in progress"
      ∨ (add_download s t).1 = Except.error "Download already in queue")
    ∧ (add_download s t).2.1 = s ∧ (add_download s t).2.2 = [] := by
  unfold add_download
  by_cases h1 : (activeGet s.active t.id).isSome = true
  · simp [h1]
  · have h2 : s.pending.any (fun u => decide (u.id = t.id)) = true := by
      rcases h with h | h
      · exact absurd h h1
      · exact h
    simp [h1, h2]

/-- Witness for C6 at a state whose pending sequence already holds the
submitted id. -/
theorem C6_duplicate_submit_rejected_witness :
    ((add_download ⟨[], [mkTask "d" DownloadStatus.Pending], 1⟩
        (mkTask "d" DownloadStatus.Pending)).1
        = Except.error "Download already in progress"
      ∨ (add_download ⟨[], [mkTask "d" DownloadStatus.Pending], 1⟩
          (mkTask "d" DownloadStatus.Pending)).1
        = Except.error "Download already in queue")
    ∧ (add_download ⟨[], [mkTask "d" DownloadStatus.Pending], 1⟩
        (mkTask "d" DownloadStatus.Pending)).2.1
        = ⟨[], [mkTask "d" DownloadStatus.Pending], 1⟩
    ∧ (add_download ⟨[], [mkTask "d" DownloadStatus.Pending], 1⟩
        (mkTask "d" DownloadStatus.Pending)).2.2 = [] :=
  C6_duplicate_submit_rejected _ _ (Or.inr (by decide))

/-- C7, counterexample: the `Paused` sample carries the task's current
transfer figures (percentage 50, 10/20 bytes here), not zeros, so pause
samples are not synthetic all-zero samples as claimed. -/
theorem C7_counterexample :
    (pause_download
      ⟨[("a", { mkTask "a" DownloadStatus.Downloading with
                progress := ⟨50, 1⟩, downloaded_bytes := 10, total_bytes := 20 })], [], 1⟩
      "a").2.2
      = [⟨"a", DownloadStatus.Paused, ⟨50, 1⟩, 10, 20, 0, 0, none⟩]
    ∧ (⟨50, 1⟩ : Frac) ≠ Frac.ofNat 0 := by decide

/-- C7 as amended: a successful pause publishes exactly one `Paused`
sample carrying the task's current percentage, downloaded and total bytes
with zero rate and eta; a successful cancel publishes exactly one
`Cancelled` sample with all transfer figures zero. -/
theorem C7_amended_samples :
    (∀ (s : QueueState) (id : String) (task : DownloadTask),
      activeGet s.active id = some task →
      (pause_download s id).1 = Except.ok ()
      ∧ (pause_download s id).2.2
          = [⟨id, DownloadStatus.Paused, task.progress, task.downloaded_bytes,
              task.total_bytes, 0, 0, none⟩])
    ∧ (∀ (s : QueueState) (id : String),
      (cancel_download s id).1 = Except.ok () →
      (cancel_download s id).2.2 = [zeroSample id DownloadStatus.Cancelled]) := by
  constructor
  · intro s id task hg
    unfold pause_download
    rw [hg]
    exact ⟨rfl, rfl⟩
  · intro s id
    unfold cancel_download
    by_cases h1 : (activeGet s.active id).isSome = true
    · simp [h1]
    · simp only [h1]
      rcases hf : s.pending.findIdx? (fun t => decide (t.id = id)) with _ | idx
      · simp [hf]
      · simp [hf]

/-- Witness for C7 as amended, pausing and cancelling an active job. -/
theorem C7_amended_samples_witness :
    ((pause_download ⟨[("a", mkTask "a" DownloadStatus.Downloading)], [], 1⟩ "a").1
        = Except.ok ()
      ∧ (pause_download ⟨[("a", mkTask "a" DownloadStatus.Downloading)], [], 1⟩ "a").2.2
        = [⟨"a", DownloadStatus.Paused, (mkTask "a" DownloadStatus.Downloading).progress,
            (mkTask "a" DownloadStatus.Downloading).downloaded_bytes,
            (mkTask "a" DownloadStatus.Downloading).total_bytes, 0, 0, none⟩])
    ∧ (cancel_download ⟨[("a", mkTask "a" DownloadStatus.Downloading)], [], 1⟩ "a").2.2
        = [zeroSample "a" DownloadStatus.Cancelled] :=
  ⟨C7_amended_samples.1 _ "a" _ (by decide),
   C7_amended_samples.2 _ "a" (by decide)⟩

theorem not_mem_regUnregister (reg : List String) (id : String) :
    id ∉ regUnregister reg id := by
  unfold regUnregister
  intro h
  have := (List.mem_filter.mp h).2
  simp at this

/-- C8, counterexample: when `child.wait()` fails, `download_video` returns
through the `?` on the wait call before reaching the unregister step, so
the registered process-id entry for the job is still in the registry on
that return path. -/
theorem C8_counterexample :
    (download_video ⟨true, some 7, true, true, true, false, true, none⟩ "j" []).1
        = Except.error "Failed to wait for yt-dlp"
    ∧ "j" ∈ (download_video ⟨true, some 7, true, true, true, false, true, none⟩ "j" []).2 := by
  decide

/-- C8 as amended: once the spawn succeeded, both streams were captured and
the wait for process exit succeeded, the job's registry entry is removed
before `download_video` returns on every remaining path (non-zero exit,
unresolved output, success); the early-error paths (failed stream capture,
failed wait) return with the entry still registered. -/
theorem C8_amended_unregister (env : ExecEnv) (id : String) (reg : List String)
    (h0 : env.spawn_ok = true) (h1 : env.stdout_ok = true) (h2 : env.stderr_ok = true)
    (h3 : env.wait_ok = true) (h4 : env.registry_available = true) :
    id ∉ (download_video env id reg).2 := by
  unfold download_video
  rw [h0, h1, h2, h3, h4]
  simp only [Bool.true_eq_false, if_false]
  cases he : env.exit_success
  · simp only [he, eq_self_iff_true, if_true]
    exact not_mem_regUnregister _ id
  · simp only [he, Bool.true_eq_false, if_false]
    rcases hf : env.find_result with _ | p
    · simp only [hf]
      exact not_mem_regUnregister _ id
    · simp only [hf]
      exact not_mem_regUnregister _ id

/-- Witness for C8 as amended: a fully successful run starting with a stale
registry holding the job id ends with the entry removed. -/
theorem C8_amended_unregister_witness :
    "j" ∉ (download_video ⟨true, some 7, true, true, true, true, true, some "/d/f.mp4"⟩
      "j" ["j", "k"]).2 :=
  C8_amended_unregister _ "j" _ rfl rfl rfl rfl rfl

/-- C9: `clear_terminal` keeps exactly the active entries whose status is
not `Completed`, `Failed` or `Cancelled`, and leaves the pending sequence
and the concurrency bound unchanged. -/
theorem C9_clear_terminal (s : QueueState) (p : String × DownloadTask) :
    (p ∈ (clear_completed s).active ↔
      (p ∈ s.active ∧ p.2.status ≠ DownloadStatus.Completed
        ∧ p.2.status ≠ DownloadStatus.Failed ∧ p.2.status ≠ DownloadStatus.Cancelled))
    ∧ (clear_completed s).pending = s.pending
    ∧ (clear_completed s).max_concurrent = s.max_concurrent := by
  refine ⟨?_, rfl, rfl⟩
  unfold clear_completed
  simp [List.mem_filter, and_assoc]

theorem mem_allTasks (s : QueueState) (t : DownloadTask) :
    t ∈ allTasks s ↔ (∃ p ∈ s.active, p.2 = t) ∨ t ∈ s.pending := by
  unfold allTasks
  simp [List.mem_map]

theorem mem_allIds (s : QueueState) (i : String) :
    i ∈ allIds s ↔ (∃ p ∈ s.active, p.2.id = i) ∨ (∃ t ∈ s.pending, t.id = i) := by
  unfold allIds allTasks
  constructor
  · intro h
    rcases List.mem_map.mp h with ⟨t, htmem, rfl⟩
    rcases List.mem_append.mp htmem with hta | htp
    · rcases List.mem_map.mp hta with ⟨p, hp, rfl⟩
      exact Or.inl ⟨p, hp, rfl⟩
    · exact Or.inr ⟨t, htp, rfl⟩
  · rintro (⟨p, hp, hid⟩ | ⟨t, ht, hid⟩)
    · exact List.mem_map.mpr ⟨p.2, List.mem_append_left _ (List.mem_map.mpr ⟨p, hp, rfl⟩), hid⟩
    · exact List.mem_map.mpr ⟨t, List.mem_append_right _ ht, hid⟩

theorem start_download_ids (i : String)
    (a : List (String × DownloadTask)) (t : DownloadTask) (rest : List DownloadTask) (mx : Nat)
    (h : i ∈ allIds (start_download ⟨a, rest, mx⟩ t).1) :
    i ∈ allIds (⟨a, t :: rest, mx⟩ : QueueState) := by
  rw [mem_allIds] at h ⊢
  have hactive : (start_download ⟨a, rest, mx⟩ t).1.active
      = (a.filter (fun p => p.1 ≠ t.id))
        ++ [(t.id, { t with status := DownloadStatus.Downloading })] := rfl
  have hpending : (start_download ⟨a, rest, mx⟩ t).1.pending = rest := rfl
  rw [hactive, hpending] at h
  rcases h with ⟨p, hp, hpid⟩ | ⟨tk, htk, htkid⟩
  · rcases List.mem_append.mp hp with hpf | hps
    · exact Or.inl ⟨p, (List.mem_filter.mp hpf).1, hpid⟩
    · have hpe : p = (t.id, { t with status := DownloadStatus.Downloading }) := by
        simpa using hps
      subst hpe
      exact Or.inr ⟨t, List.mem_cons_self _ _, by simpa using hpid⟩
  · exact Or.inr ⟨tk, List.mem_cons_of_mem _ htk, htkid⟩

theorem start_download_track (i : String) (o : DownloadOptions) (u ti : String)
    (a : List (String × DownloadTask)) (t : DownloadTask) (rest : List DownloadTask) (mx : Nat)
    (hinv : trackInv i o u ti ⟨a, t :: rest, mx⟩) :
    trackInv i o u ti (start_download ⟨a, rest, mx⟩ t).1 := by
  obtain ⟨⟨t0, ht0mem, ht0id⟩, hall, hkey⟩ := hinv
  have hactive : (start_download ⟨a, rest, mx⟩ t).1.active
      = (a.filter (fun p => p.1 ≠ t.id))
        ++ [(t.id, { t with status := DownloadStatus.Downloading })] := rfl
  have hpending : (start_download ⟨a, rest, mx⟩ t).1.pending = rest := rfl
  refine ⟨?_, ?_, ?_⟩
  · rcases (mem_allTasks _ t0).mp ht0mem with ⟨p, hp, hpt⟩ | hpend
    · have hp1 : p.1 = i := hkey p hp (by rw [hpt]; exact ht0id)
      by_cases hpt_id : p.1 = t.id
      · refine ⟨{ t with status := DownloadStatus.Downloading }, ?_, ?_⟩
        · rw [mem_allTasks, hactive]
          exact Or.inl ⟨(t.id, { t with status := DownloadStatus.Downloading }),
            List.mem_append_right _ (by simp), rfl⟩
        · show t.id = i
          rw [← hpt_id]; exact hp1
      · refine ⟨t0, ?_, ht0id⟩
        rw [mem_allTasks, hactive]
        exact Or.inl ⟨p, List.mem_append_left _
          (List.mem_filter.mpr ⟨hp, by simpa using hpt_id⟩), hpt⟩
    · rcases List.mem_cons.mp hpend with rfl | hrest
      · refine ⟨{ t0 with status := DownloadStatus.Downloading }, ?_, by simpa using ht0id⟩
        rw [mem_allTasks, hactive]
        exact Or.inl ⟨(t0.id, { t0 with status := DownloadStatus.Downloading }),
          List.mem_append_right _ (by simp), rfl⟩
      · refine ⟨t0, ?_, ht0id⟩
        rw [mem_allTasks, hpending]
        exact Or.inr hrest
  · intro t1 ht1 ht1id
    rcases (mem_allTasks _ t1).mp ht1 with ⟨p, hp, hpt⟩ | hpend1
    · rw [hactive] at hp
      rcases List.mem_append.mp hp with hpf | hps
      · exact hall t1 ((mem_allTasks _ t1).mpr
          (Or.inl ⟨p, (List.mem_filter.mp hpf).1, hpt⟩)) ht1id
      · have hpe : p = (t.id, { t with status := DownloadStatus.Downloading }) := by
          simpa using hps
        subst hpe
        have ht1e : t1 = { t with status := DownloadStatus.Downloading } := hpt.symm
        subst ht1e
        have htid : t.id = i := by simpa using ht1id
        have hspec := hall t ((mem_allTasks _ t).mpr
          (Or.inr (List.mem_cons_self _ _))) htid
        obtain ⟨hs1, hs2, hs3, hs4, hs5, _⟩ := hspec
        exact ⟨by simpa using hs1, by simpa using hs2, by simpa using hs3,
          by simpa using hs4, by simpa using hs5, Or.inr rfl⟩
    · rw [hpending] at hpend1
      exact hall t1 ((mem_allTasks _ t1).mpr
        (Or.inr (List.mem_cons_of_mem _ hpend1))) ht1id
  · intro p hp hpid
    rw [hactive] at hp
    rcases List.mem_append.mp hp with hpf | hps
    · exact hkey p (List.mem_filter.mp hpf).1 hpid
    · have hpe : p = (t.id, { t with status := DownloadStatus.Downloading }) := by
        simpa using hps
      subst hpe
      simpa using hpid

theorem processQueueGo_ids (fuel : Nat) :
    ∀ (s : QueueState) (acc : List DownloadProgress) (i : String),
    i ∈ allIds (processQueueGo fuel s acc).1 → i ∈ allIds s := by
  induction fuel with
  | zero => intro s acc i h; simpa [processQueueGo] using h
  | succ n ih =>
    intro s acc i h
    unfold processQueueGo at h
    by_cases hge : s.active.length ≥ s.max_concurrent
    · simp only [hge, if_true] at h; exact h
    · simp only [hge, if_false] at h
      obtain ⟨a, pend, mx⟩ := s
      cases pend with
      | nil => exact h
      | cons t rest =>
        have h2 := ih _ _ i h
        exact start_download_ids i a t rest mx h2

theorem processQueueGo_track (i : String) (o : DownloadOptions) (u ti : String) (fuel : Nat) :
    ∀ (s : QueueState) (acc : List DownloadProgress),
    trackInv i o u ti s → trackInv i o u ti (processQueueGo fuel s acc).1 := by
  induction fuel with
  | zero => intro s acc h; simpa [processQueueGo] using h
  | succ n ih =>
    intro s acc h
    unfold processQueueGo
    by_cases hge : s.active.length ≥ s.max_concurrent
    · simp only [hge, if_true]; exact h
    · simp only [hge, if_false]
      obtain ⟨a, pend, mx⟩ := s
      cases pend with
      | nil => exact h
      | cons t rest =>
        exact ih _ _ (start_download_track i o u ti a t rest mx h)

theorem activeGet_eq_none (a : List (String × DownloadTask)) (f : String)
    (h : ∀ p ∈ a, p.1 ≠ f) : activeGet a f = none := by
  unfold activeGet
  rw [List.find?_eq_none.mpr]
  · rfl
  · intro p hp
    simpa using h p hp

theorem retry_shape (s : QueueState) (id freshId now : String) (task : DownloadTask)
    (hfind : (get_all_downloads s).find? (fun t => t.id = id) = some task)
    (hfail : task.status = DownloadStatus.Failed)
    (hact : (activeGet s.active id).isSome = true)
    (hag : activeGet (activeRemove s.active id) freshId = none)
    (hpendany : s.pending.any (fun u => u.id = freshId) = false) :
    retry_download s id freshId now
      = (Except.ok (),
         (process_queue (retryMidState s id task freshId now)).1,
         [zeroSample id DownloadStatus.Cancelled]
           ++ (process_queue (retryMidState s id task freshId now)).2) := by
  have hcancel : cancel_download s id
      = (Except.ok (), { s with active := activeRemove s.active id },
         [zeroSample id DownloadStatus.Cancelled]) := by
    unfold cancel_download
    simp only [hact, if_true]
  have hntid : (retryNewTask task freshId now).id = freshId := rfl
  have hadd : add_download { s with active := activeRemove s.active id }
        (retryNewTask task freshId now)
      = (Except.ok (),
         (process_queue (retryMidState s id task freshId now)).1,
         (process_queue (retryMidState s id task freshId now)).2) := by
    unfold add_download
    rw [hntid, hag]
    simp only [Option.isSome_none, Bool.false_eq_true, if_false]
    simp only [hpendany, Bool.false_eq_true, if_false]
    rfl
  unfold retry_download
  simp only [hfind]
  rw [if_neg (show ¬(task.status ≠ DownloadStatus.Failed) from by simp [hfail])]
  simp only [hcancel, hadd]


/-- C2, counterexample: retrying the Failed job "f" succeeds, but the
original Failed record is removed from the queue (neither an active key,
an active task id, nor a pending id equals "f" afterwards) — it does not
remain as a historical entry. -/
theorem C2_counterexample :
    (retry_download ⟨[("f", mkTask "f" DownloadStatus.Failed)], [], 1⟩ "f" "g" "n").1
        = Except.ok ()
    ∧ ((retry_download ⟨[("f", mkTask "f" DownloadStatus.Failed)], [], 1⟩ "f" "g" "n").2.1.active.any
        (fun p => p.1 = "f" ∨ p.2.id = "f") = false)
    ∧ ((retry_download ⟨[("f", mkTask "f" DownloadStatus.Failed)], [], 1⟩ "f" "g" "n").2.1.pending.any
        (fun t => t.id = "f") = false) := by decide

/-- C2 as amended: retrying a Failed job builds a brand-new task with the
given fresh id, status `Pending`, zeroed progress and the original's
options, url and title, and submits it (so it ends up `Pending` or already
admitted as `Downloading`); but the original Failed record is removed from
the queue by the internal cancel — its id is gone from both sets. -/
theorem C2_amended_retry (s : QueueState) (id freshId now : String) (task : DownloadTask)
    (hfind : (get_all_downloads s).find? (fun t => t.id = id) = some task)
    (hfail : task.status = DownloadStatus.Failed)
    (hact : (activeGet s.active id).isSome = true)
    (hwk : ∀ p ∈ s.active, p.1 = p.2.id)
    (hpend : ∀ t ∈ s.pending, t.id ≠ id)
    (hfresh : freshId ∉ allIds s)
    (hne : freshId ≠ id) :
    (retry_download s id freshId now).1 = Except.ok ()
    ∧ (∃ t' ∈ allTasks (retry_download s id freshId now).2.1,
        newTaskSpec freshId task.options task.url task.title t')
    ∧ id ∉ allIds (retry_download s id freshId now).2.1 := by
  have hfresh_active : ∀ p ∈ s.active, p.2.id ≠ freshId := fun p hp he =>
    hfresh ((mem_allIds s freshId).mpr (Or.inl ⟨p, hp, he⟩))
  have hfresh_pend : ∀ t ∈ s.pending, t.id ≠ freshId := fun t ht he =>
    hfresh ((mem_allIds s freshId).mpr (Or.inr ⟨t, ht, he⟩))
  have hag : activeGet (activeRemove s.active id) freshId = none := by
    apply activeGet_eq_none
    intro p hp hpe
    have hpa : p ∈ s.active := (List.mem_filter.mp hp).1
    exact hfresh_active p hpa ((hwk p hpa).symm.trans hpe)
  have hpendany : s.pending.any (fun u => u.id = freshId) = false := by
    rw [List.any_eq_false]
    intro t ht
    simpa using hfresh_pend t ht
  have htrack : trackInv freshId task.options task.url task.title
      (retryMidState s id task freshId now) := by
    refine ⟨⟨retryNewTask task freshId now, ?_, rfl⟩, ?_, ?_⟩
    · rw [mem_allTasks]
      right
      exact List.mem_append_right _ (by simp)
    · intro t1 ht1 ht1id
      rcases (mem_allTasks _ t1).mp ht1 with ⟨p, hp, hpt⟩ | hpend1
      · have hpa : p ∈ s.active := (List.mem_filter.mp hp).1
        exact absurd (show p.2.id = freshId by rw [hpt]; exact ht1id) (hfresh_active p hpa)
      · rcases List.mem_append.mp hpend1 with hh | hh
        · exact absurd ht1id (hfresh_pend t1 hh)
        · have ht1e : t1 = retryNewTask task freshId now := by simpa using hh
          subst ht1e
          exact ⟨rfl, rfl, rfl, rfl, rfl, Or.inl rfl⟩
    · intro p hp hpid
      have hpa : p ∈ s.active := (List.mem_filter.mp hp).1
      exact absurd hpid (hfresh_active p hpa)
  rw [retry_shape s id freshId now task hfind hfail hact hag hpendany]
  refine ⟨rfl, ?_, ?_⟩
  · have hex := processQueueGo_track freshId task.options task.url task.title
      (retryMidState s id task freshId now).pending.length
      (retryMidState s id task freshId now) [] htrack
    obtain ⟨t', ht', htid⟩ := hex.1
    exact ⟨t', ht', hex.2.1 t' ht' htid⟩
  · intro hmem
    have h2 := processQueueGo_ids (retryMidState s id task freshId now).pending.length
      (retryMidState s id task freshId now) [] id hmem
    rcases (mem_allIds _ id).mp h2 with ⟨p, hp, hpid⟩ | ⟨t1, ht1, ht1id⟩
    · have hpa : p ∈ s.active := (List.mem_filter.mp hp).1
      have hkeyne : ¬ p.1 = id := by simpa using (List.mem_filter.mp hp).2
      exact hkeyne ((hwk p hpa).trans hpid)
    · rcases List.mem_append.mp ht1 with hh | hh
      · exact hpend t1 hh ht1id
      · have ht1e : t1 = retryNewTask task freshId now := by simpa using hh
        subst ht1e
        exact hne ht1id

/-- Witness for C2 as amended at a one-entry queue holding a Failed job. -/
theorem C2_amended_retry_witness :
    (retry_download ⟨[("f", mkTask "f" DownloadStatus.Failed)], [], 1⟩ "f" "g" "n").1
        = Except.ok ()
    ∧ (∃ t' ∈ allTasks
          (retry_download ⟨[("f", mkTask "f" DownloadStatus.Failed)], [], 1⟩ "f" "g" "n").2.1,
        newTaskSpec "g" (mkTask "f" DownloadStatus.Failed).options
          (mkTask "f" DownloadStatus.Failed).url (mkTask "f" DownloadStatus.Failed).title t')
    ∧ "f" ∉ allIds
        (retry_download ⟨[("f", mkTask "f" DownloadStatus.Failed)], [], 1⟩ "f" "g" "n").2.1 :=
  C2_amended_retry ⟨[("f", mkTask "f" DownloadStatus.Failed)], [], 1⟩ "f" "g" "n"
    (mkTask "f" DownloadStatus.Failed) (by decide) (by decide) (by decide)
    (by decide) (by decide) (by decide) (by decide)

end Clipy
